import Mathlib

/-!
Shallow embedding of two components of the repository:

* `crates/sui-types/src/sui_serde.rs` — polymorphic serde adaptors
  (`Readable`, `HexObjectId`, `TryFromVec`, `ToArray`, `SuiBitmap`,
  `KeyPairBase64`, `AuthSignature`, `AggrAuthSignature`).
* `mysten-infra/crates/mysten-network/src/server.rs` — the RPC server
  builder (`from_config` middleware stack, `bind` dispatch on the first
  multiaddr segment, `update_tcp_port_in_multiaddr`, `take_cancel_handle`).

Machine bytes are modelled as `Nat` with explicit bounds (`b < 256`),
strings as `List Char`, fallible operations as `Option`/`Except`, and a
Rust panic as a distinguished `none`/`panicked` outcome.  The serde wire
is modelled as a self-describing value (`Wire`): a serializer maps a value
to a `Wire`, a deserializer reads one back; the human-readable capability
bit of the encoder is carried alongside (`Serializer.human`,
`Deserializer.human`) exactly so that `Readable` can dispatch on it, as
the source does.  External library functions that the source merely
delegates to (roaring bitmap serialization, keypair base64 codecs, the
signature-scheme byte parsers) are taken as parameters; everything the
source itself computes is translated concretely.
-/

/-- Wire value produced by a serializer: serde strings and byte sequences. -/
inductive Wire
  | str (chars : List Char)
  | bytes (bs : List Nat)
deriving DecidableEq

/-- Serializer model: only the capability bit the source inspects
(`Serializer::is_human_readable`). -/
structure Serializer where
  human : Bool
deriving DecidableEq

/-- Deserializer model: the capability bit plus the wire value being read. -/
structure Deserializer where
  human : Bool
  wire : Wire
deriving DecidableEq

/-- Result test for `Except`, used to state failure claims. -/
def isOkE {e a : Type} : Except e a → Bool
  | .ok _ => true
  | .error _ => false

/-- Model of `String::serialize`: a string serializes to itself on the wire. -/
def stringSerialize (s : List Char) (_ : Serializer) : Wire :=
  Wire.str s

/-- Model of `String::deserialize`: reads a wire string back, fails on other
wire values (the failure is issued by the deserializer, not by an adaptor). -/
def stringDeserialize (d : Deserializer) : Except (List Char) (List Char) :=
  match d.wire with
  | .str s => .ok s
  | _ => .error ("invalid type: expected a string".toList)

/-- Model of `serde_with::Bytes::serialize_as` for byte sequences. -/
def Bytes.serialize_as (value : List Nat) (_ : Serializer) : Wire :=
  Wire.bytes value

/-- Model of `serde_with::Bytes::deserialize_as` for byte sequences. -/
def Bytes.deserialize_as (d : Deserializer) : Except (List Char) (List Nat) :=
  match d.wire with
  | .bytes bs => .ok bs
  | _ => .error ("invalid type: expected bytes".toList)

/-- Message built by `to_custom_error` (sui_serde.rs lines 20-27): the
format string is `byte deserialization failed, cause by:` followed by the
debug form of the underlying error. -/
def causeMsgD (detail : List Char) : List Char :=
  "byte deserialization failed, cause by: ".toList ++ detail

/-- Message built by `to_custom_ser_error` (sui_serde.rs lines 29-36). -/
def causeMsgS (detail : List Char) : List Char :=
  "byte serialization failed, cause by: ".toList ++ detail

/-- Readable adaptor, serialize side (sui_serde.rs lines 57-72): if the
serializer reports human readable delegate to `H`, else to `R`. -/
def Readable.serialize_as {T O : Type} (H R : T → Serializer → O)
    (value : T) (s : Serializer) : O :=
  if s.human then H value s else R value s

/-- Readable adaptor, deserialize side (sui_serde.rs lines 74-89). -/
def Readable.deserialize_as {T : Type} (H R : Deserializer → Except (List Char) T)
    (d : Deserializer) : Except (List Char) T :=
  if d.human then H d else R d

/-- Value of one hex digit character, as in the hex crate (`0-9`, `a-f`,
`A-F`), `none` on any other character. -/
def hexDigitVal (c : Char) : Option Nat :=
  if '0' ≤ c ∧ c ≤ '9' then some (c.toNat - '0'.toNat)
  else if 'a' ≤ c ∧ c ≤ 'f' then some (c.toNat - 'a'.toNat + 10)
  else if 'A' ≤ c ∧ c ≤ 'F' then some (c.toNat - 'A'.toNat + 10)
  else none

/-- Lowercase hex digit for a value below 16, as produced by `hex::encode`. -/
def hexChr (n : Nat) : Char :=
  if n < 10 then Char.ofNat ('0'.toNat + n) else Char.ofNat ('a'.toNat + n - 10)

/-- Model of `hex::encode`: each byte becomes two lowercase hex digits. -/
def hexEncode : List Nat → List Char
  | [] => []
  | b :: rest => hexChr (b / 16) :: hexChr (b % 16) :: hexEncode rest

/-- Pairwise hex decoding: fails on odd length or on a non-hex character
(the hex crate distinguishes the two error kinds; both collapse to `none`). -/
def hexDecodePairs : List Char → Option (List Nat)
  | [] => some []
  | [_] => none
  | c0 :: c1 :: rest =>
    match hexDigitVal c0, hexDigitVal c1, hexDecodePairs rest with
    | some hi, some lo, some v => some ((hi * 16 + lo) :: v)
    | _, _, _ => none

/-- Address width in bytes of `move_core_types::account_address::AccountAddress`
as this repository uses it (the spec fixes the width at 32 bytes). -/
def accountAddressLength : Nat := 32

/-- Model of `AccountAddress::from_hex`: `<[u8; LENGTH]>::from_hex` demands
exactly `2 * LENGTH` characters and decodes them pairwise; every error kind
collapses to `none`. -/
def AccountAddress.from_hex (s : List Char) : Option (List Nat) :=
  if s.length = 2 * accountAddressLength then hexDecodePairs s else none

/-- Model of `AccountAddress::from_hex_literal`: requires a leading `0x`,
left-pads the remaining hex characters with `0` up to the full width when
they are shorter, then decodes with `from_hex`. -/
def AccountAddress.from_hex_literal (s : List Char) : Option (List Nat) :=
  if s.take 2 = ['0', 'x'] then
    let hexPart := s.drop 2
    if hexPart.length < 2 * accountAddressLength then
      AccountAddress.from_hex
        (List.replicate (2 * accountAddressLength - hexPart.length) '0' ++ hexPart)
    else
      AccountAddress.from_hex hexPart
  else none

/-- HexObjectId serialize side (sui_serde.rs lines 94-101): delegates to
`Hex::serialize_as`, which writes the bytes as a lowercase hex string. -/
def HexObjectId.serialize_as (value : List Nat) (s : Serializer) : Wire :=
  stringSerialize (hexEncode value) s

/-- HexObjectId deserialize side (sui_serde.rs lines 103-116): reads a
string, chooses `from_hex_literal` for a `0x` prefix else `from_hex`, and
wraps the parse failure with `to_custom_error` (the debug form of
`AccountAddressParseError` is its bare name). -/
def HexObjectId.deserialize_as (d : Deserializer) : Except (List Char) (List Nat) :=
  match stringDeserialize d with
  | .error e => .error e
  | .ok s =>
    match (if s.take 2 = ['0', 'x'] then AccountAddress.from_hex_literal s
           else AccountAddress.from_hex s) with
    | some v => .ok v
    | none => .error (causeMsgD ("AccountAddressParseError".toList))

/-- TryFromVec serialize side (sui_serde.rs lines 123-133): pure delegation
to the codec `V`. -/
def TryFromVec.serialize_as {T : Type} (Vser : T → Serializer → Wire)
    (value : T) (s : Serializer) : Wire :=
  Vser value s

/-- TryFromVec deserialize side (sui_serde.rs lines 135-147): decode a byte
sequence through `V`, then run the fallible conversion; the conversion
error is surfaced through `Error::custom` with its own display text, with
no added prefix. -/
def TryFromVec.deserialize_as {T : Type}
    (Vde : Deserializer → Except (List Char) (List Nat))
    (try_from : List Nat → Except (List Char) T)
    (d : Deserializer) : Except (List Char) T :=
  match Vde d with
  | .error e => .error e
  | .ok v =>
    match try_from v with
    | .error e => .error e
    | .ok t => .ok t

/-- Message of the anyhow error raised by `ToArray` on a length mismatch
(sui_serde.rs lines 176-180). -/
def invalidArrayLengthMsg (found expected : Nat) : List Char :=
  "invalid array length ".toList ++ (toString found).toList
    ++ ", expecting ".toList ++ (toString expected).toList

/-- ToArray serialize side (sui_serde.rs lines 154-164): pure delegation. -/
def ToArray.serialize_as {T : Type} (Vser : T → Serializer → Wire)
    (value : T) (s : Serializer) : Wire :=
  Vser value s

/-- ToArray deserialize side (sui_serde.rs lines 166-186): decode a byte
sequence through `V`, fail unless its length is exactly `N`, else copy the
first `N` bytes into the array (modelled by `List.take`). -/
def ToArray.deserialize_as
    (Vde : Deserializer → Except (List Char) (List Nat))
    (N : Nat) (d : Deserializer) : Except (List Char) (List Nat) :=
  match Vde d with
  | .error e => .error e
  | .ok value =>
    if value.length ≠ N then .error (invalidArrayLengthMsg value.length N)
    else .ok (value.take N)

/-- SuiBitmap serialize side (sui_serde.rs lines 192-204): serialize the
bitmap with roaring's `serialize_into` (passed in as `roaringSerialize`,
the source only delegates), wrap a failure with `to_custom_ser_error`,
then write the bytes through `Bytes`. -/
def SuiBitmap.serialize_as {B : Type}
    (roaringSerialize : B → Except (List Char) (List Nat))
    (source : B) (s : Serializer) : Except (List Char) Wire :=
  match roaringSerialize source with
  | .error e => .error (causeMsgS e)
  | .ok bs => .ok (Bytes.serialize_as bs s)

/-- SuiBitmap deserialize side (sui_serde.rs lines 206-214): read bytes
through `Bytes`, then roaring's `deserialize_from`, wrapping its failure
with `to_custom_error`. -/
def SuiBitmap.deserialize_as {B : Type}
    (roaringDeserialize : List Nat → Except (List Char) B)
    (d : Deserializer) : Except (List Char) B :=
  match Bytes.deserialize_as d with
  | .error e => .error e
  | .ok bs =>
    match roaringDeserialize bs with
    | .error e => .error (causeMsgD e)
    | .ok bm => .ok bm

/-- KeyPairBase64 serialize side (sui_serde.rs lines 217-227): the keypair's
canonical base64 string (`encode_base64`, an external trait method) is
serialized as a plain string. -/
def KeyPairBase64.serialize_as {K : Type} (encode_base64 : K → List Char)
    (value : K) (s : Serializer) : Wire :=
  stringSerialize (encode_base64 value) s

/-- KeyPairBase64 deserialize side (sui_serde.rs lines 229-240): read a
string and parse it with `decode_base64`, wrapping the failure with
`to_custom_error`. -/
def KeyPairBase64.deserialize_as {K : Type}
    (decode_base64 : List Char → Except (List Char) K)
    (d : Deserializer) : Except (List Char) K :=
  match stringDeserialize d with
  | .error e => .error e
  | .ok s =>
    match decode_base64 s with
    | .error e => .error (causeMsgD e)
    | .ok k => .ok k

/-- Standard base64 alphabet, as used by `fastcrypto::encoding::Base64`. -/
def b64Chars : List Char :=
  "ABCDEFGHIJKLMNOPQRSTUVWXYZabcdefghijklmnopqrstuvwxyz0123456789+/".toList

/-- Character for a 6-bit value. -/
def b64chr (n : Nat) : Char :=
  b64Chars.getD n 'A'

/-- Value of a base64 alphabet character, `none` for anything else
(including the pad character). -/
def b64val (c : Char) : Option Nat :=
  List.findIdx? (fun x => x = c) b64Chars

/-- Standard padded base64 encoding of a byte sequence, three bytes per
four characters with `=` padding on a trailing group of one or two bytes. -/
def b64encode : List Nat → List Char
  | [] => []
  | [b0] => [b64chr (b0 / 4), b64chr (b0 % 4 * 16), '=', '=']
  | [b0, b1] => [b64chr (b0 / 4), b64chr (b0 % 4 * 16 + b1 / 16), b64chr (b1 % 16 * 4), '=']
  | b0 :: b1 :: b2 :: rest =>
    b64chr (b0 / 4) :: b64chr (b0 % 4 * 16 + b1 / 16)
      :: b64chr (b1 % 16 * 4 + b2 / 64) :: b64chr (b2 % 64) :: b64encode rest

/-- Standard padded base64 decoding: groups of four characters, padding
allowed only in the final group; `none` on any malformed input. -/
def b64decode : List Char → Option (List Nat)
  | [] => some []
  | c0 :: c1 :: c2 :: c3 :: rest =>
    if c3 = '=' then
      if rest = [] then
        if c2 = '=' then
          match b64val c0, b64val c1 with
          | some d0, some d1 => some [d0 * 4 + d1 / 16]
          | _, _ => none
        else
          match b64val c0, b64val c1, b64val c2 with
          | some d0, some d1, some d2 =>
            some [d0 * 4 + d1 / 16, d1 % 16 * 16 + d2 / 4]
          | _, _, _ => none
      else none
    else
      match b64val c0, b64val c1, b64val c2, b64val c3, b64decode rest with
      | some d0, some d1, some d2, some d3, some tail =>
        some ((d0 * 4 + d1 / 16) :: (d1 % 16 * 16 + d2 / 4) :: (d2 % 4 * 64 + d3) :: tail)
      | _, _, _, _, _ => none
  | _ => none

/-- Model of `fastcrypto::encoding::Base64::encode`. -/
def Base64.encode (b : List Nat) : List Char :=
  b64encode b

/-- Model of `fastcrypto::encoding::Base64::decode`; the concrete error is
the debug form of the underlying encoding error. -/
def Base64.decode (s : List Char) : Except (List Char) (List Nat) :=
  match b64decode s with
  | some b => .ok b
  | none => .error ("InvalidInput".toList)

/-- AuthSignature serialize side (sui_serde.rs lines 244-251): base64 of
the signature's raw bytes (`as_ref`, supplied by the scheme) written as a
string. -/
def AuthSignature.serialize_as {Sig : Type} (as_ref : Sig → List Nat)
    (value : Sig) (s : Serializer) : Wire :=
  stringSerialize (Base64.encode (as_ref value)) s

/-- AuthSignature deserialize side (sui_serde.rs lines 253-262): read a
string, base64-decode it, then rebuild the signature with the scheme's
`from_bytes`; both failures are wrapped with `to_custom_error`. -/
def AuthSignature.deserialize_as {Sig : Type}
    (from_bytes : List Nat → Except (List Char) Sig)
    (d : Deserializer) : Except (List Char) Sig :=
  match stringDeserialize d with
  | .error e => .error e
  | .ok s =>
    match Base64.decode s with
    | .error e => .error (causeMsgD e)
    | .ok sig_bytes =>
      match from_bytes sig_bytes with
      | .error e => .error (causeMsgD e)
      | .ok sig => .ok sig

/-- AggrAuthSignature serialize side (sui_serde.rs lines 266-276): same
shape as `AuthSignature`, duplicated as in the source. -/
def AggrAuthSignature.serialize_as {Sig : Type} (as_ref : Sig → List Nat)
    (value : Sig) (s : Serializer) : Wire :=
  stringSerialize (Base64.encode (as_ref value)) s

/-- AggrAuthSignature deserialize side (sui_serde.rs lines 278-288). -/
def AggrAuthSignature.deserialize_as {Sig : Type}
    (from_bytes : List Nat → Except (List Char) Sig)
    (d : Deserializer) : Except (List Char) Sig :=
  match stringDeserialize d with
  | .error e => .error e
  | .ok s =>
    match Base64.decode s with
    | .error e => .error (causeMsgD e)
    | .ok sig_bytes =>
      match from_bytes sig_bytes with
      | .error e => .error (causeMsgD e)
      | .ok sig => .ok sig

/-- Protocol segment of a multiaddr, with the constructors server.rs
dispatches on plus representative others for the unsupported branch. -/
inductive Protocol
  | dns (name : String)
  | dns4 (name : String)
  | ip4 (host : String)
  | ip6 (host : String)
  | tcp (port : Nat)
  | udp (port : Nat)
  | unix (path : String)
  | http
  | https
  | memory (port : Nat)
deriving DecidableEq

/-- Display form of a segment, as interpolated into the
`unsupported protocol` error by `anyhow!`. -/
def Protocol.display : Protocol → String
  | .dns n => "/dns/" ++ n
  | .dns4 n => "/dns4/" ++ n
  | .ip4 h => "/ip4/" ++ h
  | .ip6 h => "/ip6/" ++ h
  | .tcp p => "/tcp/" ++ toString p
  | .udp p => "/udp/" ++ toString p
  | .unix p => "/unix/" ++ p
  | .http => "/http"
  | .https => "/https"
  | .memory p => "/memory/" ++ toString p

/-- Closure passed to `Multiaddr::replace` by `update_tcp_port_in_multiaddr`
(server.rs lines 214-220): on a `Tcp` segment it yields the replacement,
on anything else the source panics, modelled as the outer `none`. -/
def tcpClosure (port : Nat) : Protocol → Option (Option Protocol)
  | .tcp _ => some (some (.tcp port))
  | _ => none

/-- Loop of the multiaddr crate's `Multiaddr::replace`: walk the segments
with their indices, apply the closure at index `pos` (at most once),
rebuild the list and remember whether a replacement happened.  The outer
`none` propagates a panic raised inside the closure. -/
def replaceAux (f : Protocol → Option (Option Protocol)) (pos : Nat) :
    Nat → List Protocol → Option (List Protocol × Bool)
  | _, [] => some ([], false)
  | i, p :: rest =>
    if i = pos then
      match f p with
      | none => none
      | some (some q) =>
        match replaceAux f pos (i + 1) rest with
        | none => none
        | some (tail, _) => some (q :: tail, true)
      | some none =>
        match replaceAux f pos (i + 1) rest with
        | none => none
        | some (tail, r) => some (p :: tail, r)
    else
      match replaceAux f pos (i + 1) rest with
      | none => none
      | some (tail, r) => some (p :: tail, r)

/-- The multiaddr crate's `Multiaddr::replace`: `some (some l)` is a
successful replacement, `some none` is Rust's `None` (nothing replaced),
and the outer `none` is a panic escaping the closure. -/
def Multiaddr.replace (addr : List Protocol) (pos : Nat)
    (f : Protocol → Option (Option Protocol)) : Option (Option (List Protocol)) :=
  match replaceAux f pos 0 addr with
  | none => none
  | some (l, r) => some (if r then some l else none)

/-- Model of `update_tcp_port_in_multiaddr` (server.rs lines 213-222):
`none` is a panic, raised either inside the closure (non-Tcp segment at
index 1) or by the `.expect` when no replacement happened. -/
def update_tcp_port_in_multiaddr (addr : List Protocol) (port : Nat) :
    Option (List Protocol) :=
  match Multiaddr.replace addr 1 (tcpClosure port) with
  | none => none
  | some none => none
  | some (some a) => some a

/-- Error raised by `bind`; parse and OS failures coming from collaborators
are carried verbatim in `other`. -/
inductive BindError
  | malformedAddr
  | unsupportedProtocol (name : String)
  | other (msg : String)
deriving DecidableEq

/-- Message text of a bind error, as produced by the `anyhow!` calls. -/
def BindError.message : BindError → String
  | .malformedAddr => "malformed addr"
  | .unsupportedProtocol n => "unsupported protocol " ++ n
  | .other m => m

/-- Bound server record (server.rs lines 188-193): the fields the claims
inspect — the resolved local address and the one-shot cancellation sender
(modelled as a unit token).  The server future and health reporter carry
no decidable content and are omitted. -/
structure BoundServer where
  local_addr : List Protocol
  cancel_handle : Option Unit
deriving DecidableEq

/-- Outcome of `bind`: success, an `anyhow` error, or a panic. -/
inductive BindOutcome
  | ok (s : BoundServer)
  | err (e : BindError)
  | panicked
deriving DecidableEq

/-- Environment of `bind`.  Modelled from the spec: the address parsing
helpers (`parse_dns`, `parse_ip4`, `parse_ip6`, `parse_unix` of
`crate::multiaddr`) and the OS listener outcomes are repository or OS
collaborators not present under src/, so they are taken as opaque
parameters; `tcp_bind` yields the kernel-assigned local port on success. -/
structure BindEnv where
  parse_dns : List Protocol → Except String (String × Nat)
  parse_ip4 : List Protocol → Except String String
  parse_ip6 : List Protocol → Except String String
  parse_unix : List Protocol → Except String String
  tcp_bind : Except String Nat
  unix_bind : String → Except String Unit

/-- Propagation of a collaborator failure, modelling the `?` operator
inside `bind`: an `anyhow` error short-circuits, a success continues. -/
def parseThen {A : Type} (res : Except String A) (k : A → BindOutcome) : BindOutcome :=
  match res with
  | .error e => .err (.other e)
  | .ok a => k a

/-- Shared tail of the three TCP branches of `bind`
(`tcp_listener_and_update_multiaddr`, server.rs lines 172-186): open the
listener, then rewrite the port at index 1 of the original address. -/
def tcpServe (env : BindEnv) (addr : List Protocol) : BindOutcome :=
  parseThen env.tcp_bind fun port =>
    match update_tcp_port_in_multiaddr addr port with
    | none => .panicked
    | some local_addr => .ok ⟨local_addr, some ()⟩

/-- Model of `ServerBuilder::bind` (server.rs lines 109-169): dispatch on
the first segment; `Dns`/`Ip4`/`Ip6` parse then open a TCP listener and
rewrite the port, `Unix` (POSIX) binds a domain socket and keeps the
address unchanged, an empty address is `malformed addr`, anything else is
`unsupported protocol`.  Every success carries a fresh cancellation
sender. -/
def ServerBuilder.bind (env : BindEnv) (addr : List Protocol) : BindOutcome :=
  match addr with
  | [] => .err .malformedAddr
  | .dns _ :: _ =>
    parseThen (env.parse_dns addr) fun _ => tcpServe env addr
  | .ip4 _ :: _ =>
    parseThen (env.parse_ip4 addr) fun _ => tcpServe env addr
  | .ip6 _ :: _ =>
    parseThen (env.parse_ip6 addr) fun _ => tcpServe env addr
  | .unix _ :: _ =>
    parseThen (env.parse_unix addr) fun path =>
      parseThen (env.unix_bind path) fun _ => .ok ⟨addr, some ()⟩
  | p :: _ => .err (.unsupportedProtocol p.display)

/-- First-segment families `bind` supports. -/
def supportedFamily : Protocol → Bool
  | .dns _ => true
  | .ip4 _ => true
  | .ip6 _ => true
  | .unix _ => true
  | _ => false

/-- TCP first-segment families (those that rewrite the port). -/
def tcpFamily : Protocol → Bool
  | .dns _ => true
  | .ip4 _ => true
  | .ip6 _ => true
  | _ => false

/-- Success of the parse helper the dispatch runs for a given first
segment. -/
def parseOk (env : BindEnv) (p : Protocol) (addr : List Protocol) : Prop :=
  match p with
  | .dns _ => ∃ r, env.parse_dns addr = .ok r
  | .ip4 _ => ∃ r, env.parse_ip4 addr = .ok r
  | .ip6 _ => ∃ r, env.parse_ip6 addr = .ok r
  | .unix _ => ∃ r, env.parse_unix addr = .ok r
  | _ => True

/-- Model of `Server::take_cancel_handle` (server.rs lines 208-210):
`Option::take` returns the current sender and leaves `None` behind. -/
def Server.take_cancel_handle (s : BoundServer) : Option Unit × BoundServer :=
  (s.cancel_handle, { s with cancel_handle := none })

/-- The k-th call (0-indexed) of `take_cancel_handle` on a server,
threading the mutated server through. -/
def takeIter (s : BoundServer) : Nat → Option Unit × BoundServer
  | 0 => Server.take_cancel_handle s
  | n + 1 => Server.take_cancel_handle (takeIter s n).2

/-- Concrete middleware the stack can contain. -/
inductive Mw
  | loadShed
  | globalLimit (limit : Nat)
deriving DecidableEq

/-- A service as a tower of middlewares wrapped around the inner router. -/
inductive Svc
  | inner
  | wrap (m : Mw) (s : Svc)
deriving DecidableEq

/-- Request-path order of a service: outermost middleware first. -/
def Svc.order : Svc → List Mw
  | .inner => []
  | .wrap m s => m :: s.order

/-- Tower layer values occurring in `from_config`: `Identity`,
`LoadShedLayer`, `GlobalConcurrencyLimitLayer`, the `Either` produced by
`option_layer` (`eitherA` wraps a present layer, `eitherB` is
`Either::B(Identity)`), and `Stack`. -/
inductive TowerLayer
  | identity
  | loadShedLayer
  | globalConcurrencyLimitLayer (limit : Nat)
  | eitherA (l : TowerLayer)
  | eitherB
  | stack (innerL outerL : TowerLayer)

/-- Semantics of `Layer::layer`: `Stack` applies its `inner` field to the
service first and wraps the result with `outer`, exactly as in
tower's `impl Layer for Stack`. -/
def TowerLayer.apply : TowerLayer → Svc → Svc
  | .identity, s => s
  | .loadShedLayer, s => .wrap .loadShed s
  | .globalConcurrencyLimitLayer n, s => .wrap (.globalLimit n) s
  | .eitherA l, s => l.apply s
  | .eitherB, s => s
  | .stack innerL outerL, s => outerL.apply (innerL.apply s)

/-- Tower's `ServiceBuilder`: an accumulated layer, starting at
`Identity`. -/
structure ServiceBuilder where
  layer : TowerLayer

/-- Model of `ServiceBuilder::new`. -/
def ServiceBuilder.new : ServiceBuilder :=
  ⟨TowerLayer.identity⟩

/-- Model of `ServiceBuilder::layer`: `Stack::new(layer, self.layer)` —
the newly added layer becomes the `inner` field, so earlier layers wrap
later ones (first added is outermost on the request path). -/
def ServiceBuilder.pushLayer (b : ServiceBuilder) (t : TowerLayer) : ServiceBuilder :=
  ⟨TowerLayer.stack t b.layer⟩

/-- Model of `ServiceBuilder::option_layer`: `Some` wraps the layer in
`Either::A`, `None` contributes `Either::B(Identity)`. -/
def ServiceBuilder.option_layer (b : ServiceBuilder) (o : Option TowerLayer) : ServiceBuilder :=
  match o with
  | some t => b.pushLayer (.eitherA t)
  | none => b.pushLayer .eitherB

/-- Model of `ServiceBuilder::into_inner`. -/
def ServiceBuilder.into_inner (b : ServiceBuilder) : TowerLayer :=
  b.layer

/-- Server configuration.  Modelled from the spec: `crate::config::Config`
is not under src/; the field list follows spec section 3 (durations as
abstract `Nat` ticks).  Only `load_shed` and `global_concurrency_limit`
feed the middleware stack. -/
structure Config where
  concurrency_limit_per_connection : Option Nat
  global_concurrency_limit : Option Nat
  load_shed : Option Bool
  request_timeout : Option Nat
  tcp_nodelay : Option Bool
  tcp_keepalive : Option Nat
  http2_initial_stream_window_size : Option Nat
  http2_initial_connection_window_size : Option Nat
  http2_keepalive_interval : Option Nat
  http2_keepalive_timeout : Option Nat
  http2_max_concurrent_streams : Option Nat

/-- Middleware assembly of `ServerBuilder::from_config` (server.rs lines
59-72), verbatim: build the optional load-shed and global-limit layers,
then `ServiceBuilder::new().option_layer(global_concurrency_limit)
.option_layer(load_shed).into_inner()`. -/
def from_config_middleware (config : Config) : TowerLayer :=
  let load_shed :=
    if (config.load_shed.getD false) then some TowerLayer.loadShedLayer else none
  let global_concurrency_limit :=
    config.global_concurrency_limit.map TowerLayer.globalConcurrencyLimitLayer
  (((ServiceBuilder.new).option_layer global_concurrency_limit).option_layer
    load_shed).into_inner

/-- Sample configuration exercising both middleware knobs. -/
def configShedAndLimit : Config :=
  ⟨none, some 1, some true, none, none, none, none, none, none, none, none⟩

/-- Sample bind environment in which every collaborator succeeds. -/
def envDemo : BindEnv :=
  ⟨fun _ => .ok ("localhost", 0), fun _ => .ok ("127.0.0.1"), fun _ => .ok ("::1"),
   fun _ => .ok ("unix-domain-socket"), .ok 8080, fun _ => .ok ()⟩

/-- Message carried by a failed result (empty for a success); used to state
claims about error texts. -/
def errMsg {a : Type} : Except (List Char) a → List Char
  | .error e => e
  | .ok _ => []

/-!  Helper lemmas shared by the claim theorems. -/

theorem parseThen_eq_ok {A : Type} (res : Except String A) (k : A → BindOutcome)
    (s : BoundServer) :
    parseThen res k = .ok s ↔ ∃ a, res = .ok a ∧ k a = .ok s := by
  cases res <;> simp [parseThen]

theorem parseThen_ok_elim {A : Type} (res : Except String A) (k : A → BindOutcome)
    (a : A) (h : res = .ok a) : parseThen res k = k a := by
  subst h; rfl

theorem hexDigitVal_hexChr (n : Nat) (h : n < 16) :
    hexDigitVal (hexChr n) = some n := by
  have hfin : ∀ m : Fin 16, hexDigitVal (hexChr m.val) = some m.val := by decide
  exact hfin ⟨n, h⟩

theorem hexChr_ne_x (n : Nat) (h : n < 16) : hexChr n ≠ 'x' := by
  have hfin : ∀ m : Fin 16, hexChr m.val ≠ 'x' := by decide
  exact hfin ⟨n, h⟩

theorem hexEncode_length (bs : List Nat) : (hexEncode bs).length = 2 * bs.length := by
  induction bs with
  | nil => rfl
  | cons b rest ih => simp [hexEncode, ih]; omega

theorem hex_roundtrip (bs : List Nat) (h : ∀ b ∈ bs, b < 256) :
    hexDecodePairs (hexEncode bs) = some bs := by
  induction bs with
  | nil => rfl
  | cons b rest ih =>
    have hb : b < 256 := h b (by simp)
    have hrest : ∀ x ∈ rest, x < 256 := fun x hx => h x (by simp [hx])
    have h1 : b / 16 < 16 := by omega
    have h2 : b % 16 < 16 := by omega
    simp [hexEncode, hexDecodePairs, hexDigitVal_hexChr _ h1, hexDigitVal_hexChr _ h2,
          ih hrest]
    omega

theorem hexPairs_total (s : List Char) (hall : ∀ c ∈ s, (hexDigitVal c).isSome = true)
    (hlen : s.length % 2 = 0) : ∃ v, hexDecodePairs s = some v := by
  match s, hall, hlen with
  | [], _, _ => exact ⟨[], rfl⟩
  | [c], _, hlen => simp at hlen
  | c0 :: c1 :: rest, hall, hlen =>
    have h0 := hall c0 (by simp)
    have h1 := hall c1 (by simp)
    have hrest : ∀ c ∈ rest, (hexDigitVal c).isSome = true :=
      fun c hc => hall c (by simp [hc])
    have hlen' : rest.length % 2 = 0 := by
      simp only [List.length_cons] at hlen; omega
    obtain ⟨v, hv⟩ := hexPairs_total rest hrest hlen'
    obtain ⟨a, ha⟩ := Option.isSome_iff_exists.mp h0
    obtain ⟨b, hb⟩ := Option.isSome_iff_exists.mp h1
    exact ⟨(a * 16 + b) :: v, by simp [hexDecodePairs, ha, hb, hv]⟩

theorem hexPairs_badchar (s : List Char) (c : Char) (hc : c ∈ s)
    (hbad : hexDigitVal c = none) : hexDecodePairs s = none := by
  match s, hc with
  | [c0], _ => rfl
  | c0 :: c1 :: rest, hc =>
    simp only [List.mem_cons] at hc
    rcases hc with h | h | h
    · subst h
      cases h1 : hexDigitVal c1 <;> simp [hexDecodePairs, hbad, h1]
    · subst h
      cases h0 : hexDigitVal c0 <;> simp [hexDecodePairs, hbad, h0]
    · have hr := hexPairs_badchar rest c h hbad
      cases h0 : hexDigitVal c0 <;> cases h1 : hexDigitVal c1 <;>
        simp [hexDecodePairs, h0, h1, hr]

theorem b64val_chr (d : Nat) (h : d < 64) : b64val (b64chr d) = some d := by
  have hfin : ∀ m : Fin 64, b64val (b64chr m.val) = some m.val := by decide
  exact hfin ⟨d, h⟩

theorem b64chr_ne_pad (d : Nat) (h : d < 64) : b64chr d ≠ '=' := by
  have hfin : ∀ m : Fin 64, b64chr m.val ≠ '=' := by decide
  exact hfin ⟨d, h⟩

theorem b64_roundtrip (bs : List Nat) (h : ∀ b ∈ bs, b < 256) :
    b64decode (b64encode bs) = some bs := by
  match bs, h with
  | [], _ => rfl
  | [b0], h =>
    have hb : b0 < 256 := h b0 (by simp)
    have h0 : b0 / 4 < 64 := by omega
    have h1 : b0 % 4 * 16 < 64 := by omega
    simp [b64encode, b64decode, b64val_chr _ h0, b64val_chr _ h1]
    omega
  | [b0, b1], h =>
    have hb0 : b0 < 256 := h b0 (by simp)
    have hb1 : b1 < 256 := h b1 (by simp)
    have h0 : b0 / 4 < 64 := by omega
    have h1 : b0 % 4 * 16 + b1 / 16 < 64 := by omega
    have h2 : b1 % 16 * 4 < 64 := by omega
    simp [b64encode, b64decode, b64val_chr _ h0, b64val_chr _ h1, b64val_chr _ h2,
          b64chr_ne_pad _ h2]
    omega
  | b0 :: b1 :: b2 :: rest, h =>
    have hb0 : b0 < 256 := h b0 (by simp)
    have hb1 : b1 < 256 := h b1 (by simp)
    have hb2 : b2 < 256 := h b2 (by simp)
    have hrest : ∀ b ∈ rest, b < 256 := fun b hb => h b (by simp [hb])
    have h0 : b0 / 4 < 64 := by omega
    have h1 : b0 % 4 * 16 + b1 / 16 < 64 := by omega
    have h2 : b1 % 16 * 4 + b2 / 64 < 64 := by omega
    have h3 : b2 % 64 < 64 := by omega
    have ih := b64_roundtrip rest hrest
    simp [b64encode, b64decode, b64val_chr _ h0, b64val_chr _ h1, b64val_chr _ h2,
          b64val_chr _ h3, b64chr_ne_pad _ h3, ih]
    omega

theorem replaceAux_skip (f : Protocol → Option (Option Protocol)) (pos : Nat)
    (l : List Protocol) : ∀ i : Nat, pos < i → replaceAux f pos i l = some (l, false) := by
  induction l with
  | nil => intro i _; rfl
  | cons p rest ih =>
    intro i hlt
    have hne : ¬ (i = pos) := by omega
    simp [replaceAux, hne, ih (i + 1) (by omega)]

theorem update_tcp_hit (a0 : Protocol) (q port : Nat) (rest : List Protocol) :
    update_tcp_port_in_multiaddr (a0 :: Protocol.tcp q :: rest) port
      = some (a0 :: Protocol.tcp port :: rest) := by
  simp [update_tcp_port_in_multiaddr, Multiaddr.replace, replaceAux, tcpClosure,
        replaceAux_skip (tcpClosure port) 1 rest 2 (by omega)]

theorem update_tcp_nontcp (a0 a1 : Protocol) (rest : List Protocol) (port : Nat)
    (h : ∀ q, a1 ≠ Protocol.tcp q) :
    update_tcp_port_in_multiaddr (a0 :: a1 :: rest) port = none := by
  have hcl : tcpClosure port a1 = none := by
    cases a1 <;> first
      | rfl
      | exact absurd rfl (h _)
  simp [update_tcp_port_in_multiaddr, Multiaddr.replace, replaceAux, hcl]

theorem update_tcp_short (addr : List Protocol) (port : Nat)
    (h : addr.length ≤ 1) : update_tcp_port_in_multiaddr addr port = none := by
  match addr, h with
  | [], _ => rfl
  | [a0], _ =>
    simp [update_tcp_port_in_multiaddr, Multiaddr.replace, replaceAux]

theorem tcpServe_ok_cancel (env : BindEnv) (addr : List Protocol) (s : BoundServer)
    (h : tcpServe env addr = .ok s) : s.cancel_handle = some () := by
  unfold tcpServe at h
  obtain ⟨port, _, hk⟩ := (parseThen_eq_ok _ _ _).mp h
  rcases hu : update_tcp_port_in_multiaddr addr port with _ | la <;>
    simp only [hu] at hk
  · cases hk
  · cases hk; rfl

theorem bind_ok_cancel (env : BindEnv) (addr : List Protocol) (s : BoundServer)
    (h : ServerBuilder.bind env addr = .ok s) : s.cancel_handle = some () := by
  unfold ServerBuilder.bind at h
  split at h
  · exact absurd h (by simp)
  · obtain ⟨a, _, hk⟩ := (parseThen_eq_ok _ _ _).mp h
    exact tcpServe_ok_cancel env _ s hk
  · obtain ⟨a, _, hk⟩ := (parseThen_eq_ok _ _ _).mp h
    exact tcpServe_ok_cancel env _ s hk
  · obtain ⟨a, _, hk⟩ := (parseThen_eq_ok _ _ _).mp h
    exact tcpServe_ok_cancel env _ s hk
  · obtain ⟨path, _, hk⟩ := (parseThen_eq_ok _ _ _).mp h
    obtain ⟨u, _, hk2⟩ := (parseThen_eq_ok _ _ _).mp hk
    cases hk2; rfl
  · exact absurd h (by simp)

theorem take2_ne_of_snd (c0 c1 : Char) (rest : List Char) (h : c1 ≠ 'x') :
    (c0 :: c1 :: rest).take 2 ≠ ['0', 'x'] := by
  intro heq
  have h2 : [c0, c1] = ['0', 'x'] := heq
  simp at h2
  exact h h2.2

theorem parseThen_not_dispatch {A : Type} (res : Except String A) (k : A → BindOutcome)
    (hk : ∀ a, k a ≠ .err .malformedAddr ∧ ∀ n, k a ≠ .err (.unsupportedProtocol n)) :
    parseThen res k ≠ .err .malformedAddr
    ∧ ∀ n, parseThen res k ≠ .err (.unsupportedProtocol n) := by
  cases res with
  | error e => exact ⟨by simp [parseThen], fun n => by simp [parseThen]⟩
  | ok a => exact hk a

theorem tcpServe_not_dispatch (env : BindEnv) (addr : List Protocol) :
    tcpServe env addr ≠ .err .malformedAddr
    ∧ ∀ n, tcpServe env addr ≠ .err (.unsupportedProtocol n) := by
  unfold tcpServe
  apply parseThen_not_dispatch
  intro port
  rcases hu : update_tcp_port_in_multiaddr addr port with _ | la <;>
    refine ⟨?_, fun n => ?_⟩ <;> simp [hu]

theorem tcpServe_hit (env : BindEnv) (a0 : Protocol) (q assigned : Nat)
    (rest : List Protocol) (hbind : env.tcp_bind = .ok assigned) :
    tcpServe env (a0 :: Protocol.tcp q :: rest)
      = .ok ⟨a0 :: Protocol.tcp assigned :: rest, some ()⟩ := by
  unfold tcpServe
  rw [parseThen_ok_elim _ _ _ hbind]
  simp [update_tcp_hit]

theorem tcpServe_panic (env : BindEnv) (a0 a1 : Protocol) (rest : List Protocol)
    (assigned : Nat) (hbind : env.tcp_bind = .ok assigned)
    (h : ∀ q, a1 ≠ Protocol.tcp q) :
    tcpServe env (a0 :: a1 :: rest) = .panicked := by
  unfold tcpServe
  rw [parseThen_ok_elim _ _ _ hbind]
  simp [update_tcp_nontcp a0 a1 rest assigned h]

/-!  Claim theorems. -/

/-- C1: at a configuration with `load_shed = Some(true)` and
`global_concurrency_limit = Some(1)`, the middleware stack built by
`from_config` reads outer-to-inner as (global-limit → load-shed → inner):
the global concurrency-limit layer is the outermost layer, not the
load-shed layer as the claim requires.  `ServiceBuilder` applies
first-added layers outermost, and the source adds the global limit
first. -/
theorem C1_from_config_stack_order :
    Svc.order (TowerLayer.apply (from_config_middleware configShedAndLimit) Svc.inner)
      = [Mw.globalLimit 1, Mw.loadShed]
    ∧ Svc.order (TowerLayer.apply (from_config_middleware configShedAndLimit) Svc.inner)
      ≠ [Mw.loadShed, Mw.globalLimit 1] := by
  constructor
  · rfl
  · decide

/-- C4: for every N in the claimed set, once the delegate codec has
produced the byte sequence `v`, `ToArray` fails exactly when `v` has the
wrong length, and on the right length returns exactly the bytes of `v` in
order. -/
theorem C4_toarray_length_check :
    ∀ N, N ∈ ([0, 1, 16, 32, 64] : List Nat) →
    ∀ (Vde : Deserializer → Except (List Char) (List Nat)) (d : Deserializer)
      (v : List Nat), Vde d = .ok v →
      ((∃ e, ToArray.deserialize_as Vde N d = .error e) ↔ v.length ≠ N)
      ∧ (v.length = N → ToArray.deserialize_as Vde N d = .ok v) := by
  intro N _ Vde d v hv
  constructor
  · constructor
    · rintro ⟨e, he⟩
      by_contra hlen
      simp [ToArray.deserialize_as, hv, hlen] at he
    · intro hlen
      exact ⟨invalidArrayLengthMsg v.length N, by simp [ToArray.deserialize_as, hv, hlen]⟩
  · intro hlen
    subst hlen
    simp [ToArray.deserialize_as, hv, List.take_length]

/-- Witness for C4 at N = 1 and N = 0 on the byte sequence [7]. -/
theorem C4_toarray_length_check_witness :
    ToArray.deserialize_as Bytes.deserialize_as 1 ⟨true, Wire.bytes [7]⟩ = .ok [7]
    ∧ ∃ e, ToArray.deserialize_as Bytes.deserialize_as 0 ⟨true, Wire.bytes [7]⟩
        = .error e :=
  ⟨(C4_toarray_length_check 1 (by decide) Bytes.deserialize_as
      ⟨true, Wire.bytes [7]⟩ [7] rfl).2 rfl,
   (C4_toarray_length_check 0 (by decide) Bytes.deserialize_as
      ⟨true, Wire.bytes [7]⟩ [7] rfl).1.mpr (by decide)⟩

/-- C8: `Readable` delegates serialization to `H` exactly on a
human-readable serializer and to `M` otherwise, symmetrically for
deserialization; on the human branch the result does not depend on the
machine delegate at all (it never runs), and symmetrically on the machine
branch. -/
theorem C8_readable_dispatch :
    ∀ (T O : Type) (Hs Ms : T → Serializer → O)
      (Hd Md : Deserializer → Except (List Char) T)
      (v : T) (s : Serializer) (d : Deserializer),
      (s.human = true → Readable.serialize_as Hs Ms v s = Hs v s)
      ∧ (s.human = false → Readable.serialize_as Hs Ms v s = Ms v s)
      ∧ (s.human = true → ∀ Ms2,
          Readable.serialize_as Hs Ms v s = Readable.serialize_as Hs Ms2 v s)
      ∧ (s.human = false → ∀ Hs2,
          Readable.serialize_as Hs Ms v s = Readable.serialize_as Hs2 Ms v s)
      ∧ (d.human = true → Readable.deserialize_as Hd Md d = Hd d)
      ∧ (d.human = false → Readable.deserialize_as Hd Md d = Md d)
      ∧ (d.human = true → ∀ Md2,
          Readable.deserialize_as Hd Md d = Readable.deserialize_as Hd Md2 d)
      ∧ (d.human = false → ∀ Hd2,
          Readable.deserialize_as Hd Md d = Readable.deserialize_as Hd2 Md d) := by
  intro T O Hs Ms Hd Md v s d
  exact ⟨fun hh => by simp [Readable.serialize_as, hh],
         fun hh => by simp [Readable.serialize_as, hh],
         fun hh Ms2 => by simp [Readable.serialize_as, hh],
         fun hh Hs2 => by simp [Readable.serialize_as, hh],
         fun hh => by simp [Readable.deserialize_as, hh],
         fun hh => by simp [Readable.deserialize_as, hh],
         fun hh Md2 => by simp [Readable.deserialize_as, hh],
         fun hh Hd2 => by simp [Readable.deserialize_as, hh]⟩

/-- Witness for C8: a human-readable serializer runs the human delegate, a
machine deserializer runs the machine delegate. -/
theorem C8_readable_dispatch_witness :
    Readable.serialize_as (fun n _ => n + 1) (fun n _ => n + 2) 5 ⟨true⟩ = 6
    ∧ Readable.deserialize_as (fun _ => .ok 1) (fun _ => .ok 2)
        ⟨false, Wire.bytes []⟩ = .ok 2 :=
  ⟨((C8_readable_dispatch Nat Nat (fun n _ => n + 1) (fun n _ => n + 2)
      (fun _ => .ok 1) (fun _ => .ok 2) 5 ⟨true⟩ ⟨false, Wire.bytes []⟩).1 rfl).trans rfl,
   ((C8_readable_dispatch Nat Nat (fun n _ => n + 1) (fun n _ => n + 2)
      (fun _ => .ok 1) (fun _ => .ok 2) 5 ⟨true⟩
      ⟨false, Wire.bytes []⟩).2.2.2.2.2.1 rfl).trans rfl⟩

/-- C5: `bind` on the empty address fails with the `malformed addr`
message; on any unsupported first segment it fails with
`unsupported protocol <name>`; on the four supported families the
dispatch never produces either of those two errors, whatever the
collaborators do. -/
theorem C5_bind_dispatch_errors :
    (∀ env : BindEnv, ServerBuilder.bind env [] = .err .malformedAddr
      ∧ BindError.message .malformedAddr = "malformed addr")
    ∧ (∀ (env : BindEnv) (p : Protocol) (rest : List Protocol),
        supportedFamily p = false →
        ServerBuilder.bind env (p :: rest) = .err (.unsupportedProtocol p.display)
        ∧ (BindError.unsupportedProtocol p.display).message
            = "unsupported protocol " ++ p.display)
    ∧ (∀ (env : BindEnv) (p : Protocol) (rest : List Protocol),
        supportedFamily p = true →
        ServerBuilder.bind env (p :: rest) ≠ .err .malformedAddr
        ∧ ∀ n, ServerBuilder.bind env (p :: rest) ≠ .err (.unsupportedProtocol n)) := by
  refine ⟨fun env => ⟨rfl, rfl⟩, ?_, ?_⟩
  · intro env p rest hp
    cases p <;> simp [supportedFamily] at hp <;> exact ⟨rfl, rfl⟩
  · intro env p rest hp
    cases p with
    | dns name => exact parseThen_not_dispatch _ _ (fun a => tcpServe_not_dispatch env _)
    | ip4 host => exact parseThen_not_dispatch _ _ (fun a => tcpServe_not_dispatch env _)
    | ip6 host => exact parseThen_not_dispatch _ _ (fun a => tcpServe_not_dispatch env _)
    | unix path =>
      refine parseThen_not_dispatch _ _ (fun a =>
        parseThen_not_dispatch _ _ (fun u => ⟨by simp, fun n => by simp⟩))
    | dns4 name => simp [supportedFamily] at hp
    | tcp port => simp [supportedFamily] at hp
    | udp port => simp [supportedFamily] at hp
    | http => simp [supportedFamily] at hp
    | https => simp [supportedFamily] at hp
    | memory port => simp [supportedFamily] at hp

/-- Witness for C5: the empty address, an `/http` first segment, and a
Unix first segment under the all-success environment. -/
theorem C5_bind_dispatch_errors_witness :
    ServerBuilder.bind envDemo [] = .err .malformedAddr
    ∧ ServerBuilder.bind envDemo [Protocol.http] = .err (.unsupportedProtocol ("/http"))
    ∧ ServerBuilder.bind envDemo [Protocol.unix ("p"), Protocol.http]
        ≠ .err .malformedAddr :=
  ⟨(C5_bind_dispatch_errors.1 envDemo).1,
   (C5_bind_dispatch_errors.2.1 envDemo Protocol.http [] rfl).1,
   (C5_bind_dispatch_errors.2.2 envDemo (Protocol.unix ("p")) [Protocol.http] rfl).1⟩

/-- C10: when the first segment is `Unix(path)` and both the parse and the
domain-socket bind succeed, `bind` returns the input address itself as
`local_addr` — no segment is rewritten. -/
theorem C10_unix_local_addr :
    ∀ (env : BindEnv) (path : String) (rest : List Protocol),
      (∃ p2, env.parse_unix (Protocol.unix path :: rest) = .ok p2
        ∧ env.unix_bind p2 = .ok ()) →
      ServerBuilder.bind env (Protocol.unix path :: rest)
        = .ok ⟨Protocol.unix path :: rest, some ()⟩ := by
  intro env path rest h
  obtain ⟨p2, hp, hb⟩ := h
  have h1 : ServerBuilder.bind env (Protocol.unix path :: rest)
      = parseThen (env.parse_unix (Protocol.unix path :: rest)) (fun p3 =>
          parseThen (env.unix_bind p3) (fun _ =>
            .ok ⟨Protocol.unix path :: rest, some ()⟩)) := rfl
  rw [h1, parseThen_ok_elim _ _ _ hp, parseThen_ok_elim _ _ _ hb]

/-- Witness for C10 under the all-success environment. -/
theorem C10_unix_local_addr_witness :
    ServerBuilder.bind envDemo [Protocol.unix ("unix-domain-socket"), Protocol.http]
      = .ok ⟨[Protocol.unix ("unix-domain-socket"), Protocol.http], some ()⟩ :=
  C10_unix_local_addr envDemo ("unix-domain-socket") [Protocol.http]
    ⟨"unix-domain-socket", rfl, rfl⟩

/-- C7: every server produced by a successful `bind` holds the
cancellation sender, the first `take_cancel_handle` call returns it, and
every later call returns nothing.  (That `serve` can run at most once is
enforced by its `self`-consuming Rust signature, outside this model.) -/
theorem C7_take_cancel_handle_once :
    ∀ (env : BindEnv) (addr : List Protocol) (s : BoundServer),
      ServerBuilder.bind env addr = .ok s →
      (takeIter s 0).1 = some ()
      ∧ ∀ n : Nat, (takeIter s (n + 1)).1 = none := by
  intro env addr s h
  have hc : s.cancel_handle = some () := bind_ok_cancel env addr s h
  have hnone : ∀ n, (takeIter s n).2.cancel_handle = none := by
    intro n
    cases n with
    | zero => simp [takeIter, Server.take_cancel_handle]
    | succ m => simp [takeIter, Server.take_cancel_handle]
  exact ⟨by simp [takeIter, Server.take_cancel_handle, hc],
         fun n => by simp [takeIter, Server.take_cancel_handle, hnone n]⟩

/-- Witness for C7: the server bound on the demo Unix address yields its
sender once and nothing on the second call. -/
theorem C7_take_cancel_handle_once_witness :
    (takeIter ⟨[Protocol.unix ("unix-domain-socket"), Protocol.http], some ()⟩ 0).1
      = some ()
    ∧ (takeIter ⟨[Protocol.unix ("unix-domain-socket"), Protocol.http], some ()⟩ 1).1
      = none :=
  ⟨(C7_take_cancel_handle_once envDemo
      [Protocol.unix ("unix-domain-socket"), Protocol.http]
      ⟨[Protocol.unix ("unix-domain-socket"), Protocol.http], some ()⟩ rfl).1,
   (C7_take_cancel_handle_once envDemo
      [Protocol.unix ("unix-domain-socket"), Protocol.http]
      ⟨[Protocol.unix ("unix-domain-socket"), Protocol.http], some ()⟩ rfl).2 0⟩

/-- C6: for a TCP-family first segment, once the parse helper and the
listener succeed with assigned port `assigned`, `bind` returns the input
address with only index 1 replaced by `Tcp(assigned)` (every other index
reads back unchanged), the result equals the input exactly when the
assigned port equals the requested one (i.e. a concrete port was granted),
and a non-`Tcp` segment at index 1 makes the rewrite panic. -/
theorem C6_bind_tcp_local_addr :
    ∀ (env : BindEnv) (a0 seg1 : Protocol) (rest : List Protocol) (assigned : Nat),
      tcpFamily a0 = true →
      parseOk env a0 (a0 :: seg1 :: rest) →
      env.tcp_bind = .ok assigned →
      ((∀ q : Nat, seg1 = .tcp q →
          ServerBuilder.bind env (a0 :: seg1 :: rest)
            = .ok ⟨(a0 :: seg1 :: rest).set 1 (Protocol.tcp assigned), some ()⟩
          ∧ (∀ i, i ≠ 1 →
              ((a0 :: seg1 :: rest).set 1 (Protocol.tcp assigned))[i]?
                = (a0 :: seg1 :: rest)[i]?)
          ∧ ((a0 :: seg1 :: rest).set 1 (Protocol.tcp assigned) = a0 :: seg1 :: rest
              ↔ assigned = q))
        ∧ ((∀ q : Nat, seg1 ≠ .tcp q) →
            ServerBuilder.bind env (a0 :: seg1 :: rest) = .panicked)) := by
  intro env a0 seg1 rest assigned hfam hparse hbind
  have hserve : ServerBuilder.bind env (a0 :: seg1 :: rest)
      = tcpServe env (a0 :: seg1 :: rest) := by
    cases a0 with
    | dns name =>
      obtain ⟨r, hr⟩ := hparse
      calc ServerBuilder.bind env (Protocol.dns name :: seg1 :: rest)
          = parseThen (env.parse_dns (Protocol.dns name :: seg1 :: rest))
              (fun _ => tcpServe env (Protocol.dns name :: seg1 :: rest)) := rfl
        _ = tcpServe env (Protocol.dns name :: seg1 :: rest) :=
            parseThen_ok_elim _ _ _ hr
    | ip4 host =>
      obtain ⟨r, hr⟩ := hparse
      calc ServerBuilder.bind env (Protocol.ip4 host :: seg1 :: rest)
          = parseThen (env.parse_ip4 (Protocol.ip4 host :: seg1 :: rest))
              (fun _ => tcpServe env (Protocol.ip4 host :: seg1 :: rest)) := rfl
        _ = tcpServe env (Protocol.ip4 host :: seg1 :: rest) :=
            parseThen_ok_elim _ _ _ hr
    | ip6 host =>
      obtain ⟨r, hr⟩ := hparse
      calc ServerBuilder.bind env (Protocol.ip6 host :: seg1 :: rest)
          = parseThen (env.parse_ip6 (Protocol.ip6 host :: seg1 :: rest))
              (fun _ => tcpServe env (Protocol.ip6 host :: seg1 :: rest)) := rfl
        _ = tcpServe env (Protocol.ip6 host :: seg1 :: rest) :=
            parseThen_ok_elim _ _ _ hr
    | dns4 name => simp [tcpFamily] at hfam
    | tcp port => simp [tcpFamily] at hfam
    | udp port => simp [tcpFamily] at hfam
    | unix path => simp [tcpFamily] at hfam
    | http => simp [tcpFamily] at hfam
    | https => simp [tcpFamily] at hfam
    | memory port => simp [tcpFamily] at hfam
  constructor
  · intro q hq
    subst hq
    refine ⟨?_, ?_, ?_⟩
    · rw [hserve, tcpServe_hit env a0 q assigned rest hbind]
      simp [List.set]
    · intro i hi
      match i, hi with
      | 0, _ => rfl
      | n + 2, _ => rfl
    · simp [List.set]
  · intro hq
    rw [hserve]
    exact tcpServe_panic env a0 seg1 rest assigned hbind hq

/-- Witness for C6: binding `/ip4/127.0.0.1/tcp/8080/http` under the demo
environment (which assigns port 8080) keeps the address unchanged, and an
address with `/http` at index 1 panics. -/
theorem C6_bind_tcp_local_addr_witness :
    ServerBuilder.bind envDemo
        [Protocol.ip4 ("127.0.0.1"), Protocol.tcp 8080, Protocol.http]
      = .ok ⟨[Protocol.ip4 ("127.0.0.1"), Protocol.tcp 8080, Protocol.http], some ()⟩
    ∧ ServerBuilder.bind envDemo
        [Protocol.ip4 ("127.0.0.1"), Protocol.http, Protocol.http] = .panicked :=
  ⟨((C6_bind_tcp_local_addr envDemo (Protocol.ip4 ("127.0.0.1")) (Protocol.tcp 8080)
      [Protocol.http] 8080 rfl ⟨"127.0.0.1", rfl⟩ rfl).1 8080 rfl).1,
   (C6_bind_tcp_local_addr envDemo (Protocol.ip4 ("127.0.0.1")) Protocol.http
      [Protocol.http] 8080 rfl ⟨"127.0.0.1", rfl⟩ rfl).2
     (fun _ h => Protocol.noConfusion h)⟩

theorem from_hex_literal_cons (s : List Char) :
    AccountAddress.from_hex_literal ('0' :: 'x' :: s)
      = if s.length < 2 * accountAddressLength then
          AccountAddress.from_hex
            (List.replicate (2 * accountAddressLength - s.length) '0' ++ s)
        else AccountAddress.from_hex s := rfl

/-- Counterexample to C2 at s = "1": decoding `0x1` succeeds (the literal
parser zero-pads short hex), while decoding the bare `1` fails, so the two
forms do not produce the same result on an odd-length input. -/
theorem C2_prefixed_and_bare_disagree :
    HexObjectId.deserialize_as ⟨true, Wire.str ['0', 'x', '1']⟩
      = .ok (List.replicate 31 0 ++ [1])
    ∧ isOkE (HexObjectId.deserialize_as ⟨true, Wire.str ['1']⟩) = false := by
  constructor
  · rfl
  · rfl

/-- C2 (amended): on full-width valid hex the prefixed and bare forms
agree and succeed; the bare form (when it does not itself start with `0x`)
fails on any odd-length, non-hex or wrong-length input; but the `0x`
prefixed form zero-pads, so it succeeds on every valid hex tail of length
at most the address width. -/
theorem C2_hex_decode_amended :
    (∀ (human : Bool) (s : List Char), s.length = 2 * accountAddressLength →
      (∀ c ∈ s, (hexDigitVal c).isSome = true) →
      ∃ v, hexDecodePairs s = some v
        ∧ HexObjectId.deserialize_as ⟨human, Wire.str (['0', 'x'] ++ s)⟩ = .ok v
        ∧ HexObjectId.deserialize_as ⟨human, Wire.str s⟩ = .ok v)
    ∧ (∀ (human : Bool) (s : List Char), s.take 2 ≠ ['0', 'x'] →
        (s.length ≠ 2 * accountAddressLength ∨ ∃ c ∈ s, hexDigitVal c = none) →
        isOkE (HexObjectId.deserialize_as ⟨human, Wire.str s⟩) = false)
    ∧ (∀ (human : Bool) (s : List Char), 1 ≤ s.length →
        s.length ≤ 2 * accountAddressLength →
        (∀ c ∈ s, (hexDigitVal c).isSome = true) →
        ∃ v, HexObjectId.deserialize_as ⟨human, Wire.str (['0', 'x'] ++ s)⟩ = .ok v) := by
  refine ⟨?_, ?_, ?_⟩
  · intro human s hlen hall
    obtain ⟨v, hv⟩ := hexPairs_total s hall (by rw [hlen]; decide)
    have hfh : AccountAddress.from_hex s = some v := by
      unfold AccountAddress.from_hex
      rw [if_pos hlen]
      exact hv
    have hnotlt : ¬ (s.length < 2 * accountAddressLength) := by
      rw [hlen]; exact lt_irrefl _
    have hfhl : AccountAddress.from_hex_literal ('0' :: 'x' :: s) = some v := by
      rw [from_hex_literal_cons, if_neg hnotlt]
      exact hfh
    have hlen2 : 2 ≤ s.length := by
      rw [hlen]; decide
    refine ⟨v, hv, ?_, ?_⟩
    · simp [HexObjectId.deserialize_as, stringDeserialize, hfhl]
    · obtain ⟨c0, c1, t, rfl⟩ : ∃ c0 c1 t, s = c0 :: c1 :: t := by
        match s, hlen2 with
        | c0 :: c1 :: t, _ => exact ⟨c0, c1, t, rfl⟩
      have h1 := hall c1 (by simp)
      have hx : c1 ≠ 'x' := by
        intro he
        rw [he] at h1
        exact absurd h1 (by decide)
      simp [HexObjectId.deserialize_as, stringDeserialize, hx, hfh]
  · intro human s hpre hbad
    have hfh : AccountAddress.from_hex s = none := by
      rcases hbad with hlen | ⟨c, hc, hbadc⟩
      · unfold AccountAddress.from_hex
        rw [if_neg hlen]
      · unfold AccountAddress.from_hex
        rw [hexPairs_badchar s c hc hbadc]
        simp
    simp [HexObjectId.deserialize_as, stringDeserialize, hpre, hfh, isOkE]
  · intro human s h1 h2 hall
    have hplen : (List.replicate (2 * accountAddressLength - s.length) '0' ++ s).length
        = 2 * accountAddressLength := by
      simp
      omega
    have hpall : ∀ c ∈ List.replicate (2 * accountAddressLength - s.length) '0' ++ s,
        (hexDigitVal c).isSome = true := by
      intro c hc
      rcases List.mem_append.mp hc with hcl | hcr
      · have hc0 : c = '0' := List.eq_of_mem_replicate hcl
        rw [hc0]; decide
      · exact hall c hcr
    obtain ⟨v, hv⟩ := hexPairs_total _ hpall (by rw [hplen]; decide)
    have hfh : AccountAddress.from_hex
        (List.replicate (2 * accountAddressLength - s.length) '0' ++ s) = some v := by
      unfold AccountAddress.from_hex
      rw [if_pos hplen]
      exact hv
    have hfhl : AccountAddress.from_hex_literal ('0' :: 'x' :: s) = some v := by
      rw [from_hex_literal_cons]
      by_cases hlt : s.length < 2 * accountAddressLength
      · rw [if_pos hlt]
        exact hfh
      · rw [if_neg hlt]
        have hz : 2 * accountAddressLength - s.length = 0 := by omega
        rw [hz] at hfh
        simpa using hfh
    exact ⟨v, by simp [HexObjectId.deserialize_as, stringDeserialize, hfhl]⟩

/-- Witness for C2 (amended): the bare input `a` (length 1) fails decode. -/
theorem C2_hex_decode_amended_witness :
    isOkE (HexObjectId.deserialize_as ⟨true, Wire.str ['a']⟩) = false :=
  C2_hex_decode_amended.2.1 true ['a'] (by decide) (Or.inl (by decide))

/-- Counterexample to C3: a failing conversion inside `TryFromVec` is
surfaced verbatim through `Error::custom`, so the resulting decode error
does not carry the `byte deserialization failed, cause by:` message. -/
theorem C3_tryfromvec_error_unprefixed :
    TryFromVec.deserialize_as Bytes.deserialize_as
        (fun _ => (.error ("conversion failed".toList) : Except (List Char) Unit))
        ⟨true, Wire.bytes [1]⟩
      = .error ("conversion failed".toList)
    ∧ (("byte deserialization failed, cause by: ".toList).isPrefixOf
        (errMsg (TryFromVec.deserialize_as Bytes.deserialize_as
          (fun _ => (.error ("conversion failed".toList) : Except (List Char) Unit))
          ⟨true, Wire.bytes [1]⟩))) = false := by
  constructor
  · rfl
  · decide

/-- C3 (amended): the adaptors that go through `to_custom_error` /
`to_custom_ser_error` (`HexObjectId`, `SuiBitmap`, `KeyPairBase64`,
`AuthSignature`, `AggrAuthSignature`) produce exactly the claimed
`byte (de)serialization failed, cause by: <detail>` messages; but
`TryFromVec` surfaces the conversion error's own text unprefixed, and
`ToArray` reports `invalid array length <n>, expecting <N>`. -/
theorem C3_error_messages_amended :
    (∀ (human : Bool) (s : List Char),
      (if s.take 2 = ['0', 'x'] then AccountAddress.from_hex_literal s
       else AccountAddress.from_hex s) = none →
      HexObjectId.deserialize_as ⟨human, Wire.str s⟩
        = .error (causeMsgD ("AccountAddressParseError".toList)))
    ∧ (∀ (B : Type) (rser : B → Except (List Char) (List Nat)) (bm : B)
        (sz : Serializer) (e : List Char), rser bm = .error e →
        SuiBitmap.serialize_as rser bm sz = .error (causeMsgS e))
    ∧ (∀ (B : Type) (rde : List Nat → Except (List Char) B) (human : Bool)
        (bs : List Nat) (e : List Char), rde bs = .error e →
        SuiBitmap.deserialize_as rde ⟨human, Wire.bytes bs⟩ = .error (causeMsgD e))
    ∧ (∀ (K : Type) (dec : List Char → Except (List Char) K) (human : Bool)
        (s : List Char) (e : List Char), dec s = .error e →
        KeyPairBase64.deserialize_as dec ⟨human, Wire.str s⟩ = .error (causeMsgD e))
    ∧ (∀ (Sig : Type) (fb : List Nat → Except (List Char) Sig) (human : Bool)
        (s : List Char) (bs : List Nat) (e : List Char),
        Base64.decode s = .ok bs → fb bs = .error e →
        AuthSignature.deserialize_as fb ⟨human, Wire.str s⟩ = .error (causeMsgD e))
    ∧ (∀ (Sig : Type) (fb : List Nat → Except (List Char) Sig) (human : Bool)
        (s : List Char) (bs : List Nat) (e : List Char),
        Base64.decode s = .ok bs → fb bs = .error e →
        AggrAuthSignature.deserialize_as fb ⟨human, Wire.str s⟩ = .error (causeMsgD e))
    ∧ (∀ (T : Type) (Vde : Deserializer → Except (List Char) (List Nat))
        (tf : List Nat → Except (List Char) T) (d : Deserializer)
        (v : List Nat) (e : List Char), Vde d = .ok v → tf v = .error e →
        TryFromVec.deserialize_as Vde tf d = .error e)
    ∧ (∀ (Vde : Deserializer → Except (List Char) (List Nat)) (N : Nat)
        (d : Deserializer) (v : List Nat), Vde d = .ok v → v.length ≠ N →
        ToArray.deserialize_as Vde N d = .error (invalidArrayLengthMsg v.length N)) := by
  refine ⟨?_, ?_, ?_, ?_, ?_, ?_, ?_, ?_⟩
  · intro human s hnone
    simp [HexObjectId.deserialize_as, stringDeserialize, hnone]
  · intro B rser bm sz e he
    simp [SuiBitmap.serialize_as, he]
  · intro B rde human bs e he
    simp [SuiBitmap.deserialize_as, Bytes.deserialize_as, he]
  · intro K dec human s e he
    simp [KeyPairBase64.deserialize_as, stringDeserialize, he]
  · intro Sig fb human s bs e hb he
    simp [AuthSignature.deserialize_as, stringDeserialize, hb, he]
  · intro Sig fb human s bs e hb he
    simp [AggrAuthSignature.deserialize_as, stringDeserialize, hb, he]
  · intro T Vde tf d v e hv he
    simp [TryFromVec.deserialize_as, hv, he]
  · intro Vde N d v hv hlen
    simp [ToArray.deserialize_as, hv, hlen]

/-- Witness for C3 (amended): concrete failing decodes for `TryFromVec`,
`ToArray` and `HexObjectId`. -/
theorem C3_error_messages_amended_witness :
    TryFromVec.deserialize_as Bytes.deserialize_as
        (fun _ => (.error ("bad".toList) : Except (List Char) Unit))
        ⟨false, Wire.bytes []⟩ = .error ("bad".toList)
    ∧ ToArray.deserialize_as Bytes.deserialize_as 2 ⟨false, Wire.bytes [1]⟩
        = .error (invalidArrayLengthMsg 1 2)
    ∧ HexObjectId.deserialize_as ⟨true, Wire.str ['z']⟩
        = .error (causeMsgD ("AccountAddressParseError".toList)) :=
  ⟨C3_error_messages_amended.2.2.2.2.2.2.1 Unit Bytes.deserialize_as
      (fun _ => .error ("bad".toList)) ⟨false, Wire.bytes []⟩ [] ("bad".toList) rfl rfl,
   C3_error_messages_amended.2.2.2.2.2.2.2 Bytes.deserialize_as 2
      ⟨false, Wire.bytes [1]⟩ [1] rfl (by decide),
   C3_error_messages_amended.1 true ['z'] rfl⟩

/-- C9: decode-of-encode is the identity for every adaptor, whatever the
encoder's human-readable bit on either side.  `HexObjectId` and the two
signature adaptors are proved over the concrete hex/base64 codecs; the
delegated external functions (the `V` codec of `TryFromVec`/`ToArray`,
roaring's byte format, the keypair base64 codec, the signature scheme's
`as_ref`/`from_bytes`) enter through their documented inverse
contracts. -/
theorem C9_adaptor_roundtrip :
    (∀ (sz : Serializer) (human : Bool) (addr : List Nat),
      addr.length = accountAddressLength → (∀ b ∈ addr, b < 256) →
      HexObjectId.deserialize_as ⟨human, HexObjectId.serialize_as addr sz⟩ = .ok addr)
    ∧ (∀ (T : Type) (Vser : T → Serializer → Wire)
        (Vde : Deserializer → Except (List Char) (List Nat))
        (tf : List Nat → Except (List Char) T) (x : T) (sz : Serializer)
        (human : Bool) (bs : List Nat),
        Vde ⟨human, Vser x sz⟩ = .ok bs → tf bs = .ok x →
        TryFromVec.deserialize_as Vde tf ⟨human, TryFromVec.serialize_as Vser x sz⟩
          = .ok x)
    ∧ (∀ (Vser : List Nat → Serializer → Wire)
        (Vde : Deserializer → Except (List Char) (List Nat))
        (N : Nat) (x : List Nat) (sz : Serializer) (human : Bool),
        Vde ⟨human, Vser x sz⟩ = .ok x → x.length = N →
        ToArray.deserialize_as Vde N ⟨human, ToArray.serialize_as Vser x sz⟩ = .ok x)
    ∧ (∀ (B : Type) (rser : B → Except (List Char) (List Nat))
        (rde : List Nat → Except (List Char) B) (bm : B) (sz : Serializer)
        (human : Bool) (bs : List Nat) (w : Wire),
        rser bm = .ok bs → rde bs = .ok bm →
        SuiBitmap.serialize_as rser bm sz = .ok w →
        SuiBitmap.deserialize_as rde ⟨human, w⟩ = .ok bm)
    ∧ (∀ (K : Type) (enc : K → List Char) (dec : List Char → Except (List Char) K)
        (kp : K) (sz : Serializer) (human : Bool),
        dec (enc kp) = .ok kp →
        KeyPairBase64.deserialize_as dec ⟨human, KeyPairBase64.serialize_as enc kp sz⟩
          = .ok kp)
    ∧ (∀ (Sig : Type) (as_ref : Sig → List Nat)
        (fb : List Nat → Except (List Char) Sig) (sig : Sig) (sz : Serializer)
        (human : Bool),
        (∀ b ∈ as_ref sig, b < 256) → fb (as_ref sig) = .ok sig →
        AuthSignature.deserialize_as fb
          ⟨human, AuthSignature.serialize_as as_ref sig sz⟩ = .ok sig)
    ∧ (∀ (Sig : Type) (as_ref : Sig → List Nat)
        (fb : List Nat → Except (List Char) Sig) (sig : Sig) (sz : Serializer)
        (human : Bool),
        (∀ b ∈ as_ref sig, b < 256) → fb (as_ref sig) = .ok sig →
        AggrAuthSignature.deserialize_as fb
          ⟨human, AggrAuthSignature.serialize_as as_ref sig sz⟩ = .ok sig) := by
  refine ⟨?_, ?_, ?_, ?_, ?_, ?_, ?_⟩
  · intro sz human addr hlen h256
    match addr, hlen, h256 with
    | b :: rest, hlen, h256 =>
      have hb : b < 256 := h256 b (by simp)
      have h16 : b % 16 < 16 := by omega
      have hne : hexChr (b % 16) ≠ 'x' := hexChr_ne_x _ h16
      have hlen2 : (hexEncode (b :: rest)).length = 2 * accountAddressLength := by
        rw [hexEncode_length, hlen]
      have htake : (hexEncode (b :: rest)).take 2 ≠ ['0', 'x'] := by
        simp only [hexEncode]
        exact take2_ne_of_snd _ _ _ hne
      have hdec := hex_roundtrip (b :: rest) h256
      have hfh : AccountAddress.from_hex (hexEncode (b :: rest)) = some (b :: rest) := by
        unfold AccountAddress.from_hex
        rw [if_pos hlen2]
        exact hdec
      simp [HexObjectId.deserialize_as, HexObjectId.serialize_as, stringSerialize,
            stringDeserialize, htake, hfh]
  · intro T Vser Vde tf x sz human bs hV htf
    simp [TryFromVec.deserialize_as, TryFromVec.serialize_as, hV, htf]
  · intro Vser Vde N x sz human hV hlen
    subst hlen
    simp [ToArray.deserialize_as, ToArray.serialize_as, hV, List.take_length]
  · intro B rser rde bm sz human bs w hser hde hw
    rw [SuiBitmap.serialize_as] at hw
    rw [hser] at hw
    cases hw
    simp [SuiBitmap.deserialize_as, Bytes.deserialize_as, Bytes.serialize_as, hde]
  · intro K enc dec kp sz human hdec
    simp [KeyPairBase64.deserialize_as, KeyPairBase64.serialize_as, stringSerialize,
          stringDeserialize, hdec]
  · intro Sig as_ref fb sig sz human h256 hfb
    simp [AuthSignature.deserialize_as, AuthSignature.serialize_as, stringSerialize,
          stringDeserialize, Base64.encode, Base64.decode, b64_roundtrip _ h256, hfb]
  · intro Sig as_ref fb sig sz human h256 hfb
    simp [AggrAuthSignature.deserialize_as, AggrAuthSignature.serialize_as,
          stringSerialize, stringDeserialize, Base64.encode, Base64.decode,
          b64_roundtrip _ h256, hfb]

/-- Witness for C9: concrete round-trips through all seven adaptors with
identity-style delegates and small literal values. -/
theorem C9_adaptor_roundtrip_witness :
    HexObjectId.deserialize_as ⟨true, HexObjectId.serialize_as (List.replicate 32 7) ⟨true⟩⟩
      = .ok (List.replicate 32 7)
    ∧ TryFromVec.deserialize_as Bytes.deserialize_as (fun v => .ok v)
        ⟨false, TryFromVec.serialize_as (fun v _ => Wire.bytes v) ([1, 2] : List Nat) ⟨false⟩⟩
      = .ok [1, 2]
    ∧ ToArray.deserialize_as Bytes.deserialize_as 2
        ⟨false, ToArray.serialize_as (fun v _ => Wire.bytes v) [3, 4] ⟨false⟩⟩ = .ok [3, 4]
    ∧ SuiBitmap.deserialize_as (fun bs => (.ok bs : Except (List Char) (List Nat)))
        ⟨true, Wire.bytes [5]⟩ = .ok [5]
    ∧ KeyPairBase64.deserialize_as (fun s => .ok s)
        ⟨true, KeyPairBase64.serialize_as (fun k => k) (['k'] : List Char) ⟨true⟩⟩
      = .ok ['k']
    ∧ AuthSignature.deserialize_as (fun bs => .ok bs)
        ⟨true, AuthSignature.serialize_as (fun bs => bs) ([1, 2, 3] : List Nat) ⟨true⟩⟩
      = .ok [1, 2, 3]
    ∧ AggrAuthSignature.deserialize_as (fun bs => .ok bs)
        ⟨false, AggrAuthSignature.serialize_as (fun bs => bs) ([9] : List Nat) ⟨false⟩⟩
      = .ok [9] :=
  ⟨C9_adaptor_roundtrip.1 ⟨true⟩ true (List.replicate 32 7) (by decide) (by decide),
   C9_adaptor_roundtrip.2.1 (List Nat) (fun v _ => Wire.bytes v) Bytes.deserialize_as
     (fun v => .ok v) [1, 2] ⟨false⟩ false [1, 2] rfl rfl,
   C9_adaptor_roundtrip.2.2.1 (fun v _ => Wire.bytes v) Bytes.deserialize_as 2
     [3, 4] ⟨false⟩ false rfl rfl,
   C9_adaptor_roundtrip.2.2.2.1 (List Nat) (fun b => .ok b) (fun bs => .ok bs)
     [5] ⟨true⟩ true [5] (Wire.bytes [5]) rfl rfl rfl,
   C9_adaptor_roundtrip.2.2.2.2.1 (List Char) (fun k => k) (fun s => .ok s)
     ['k'] ⟨true⟩ true rfl,
   C9_adaptor_roundtrip.2.2.2.2.2.1 (List Nat) (fun bs => bs) (fun bs => .ok bs)
     [1, 2, 3] ⟨true⟩ true (by decide) rfl,
   C9_adaptor_roundtrip.2.2.2.2.2.2 (List Nat) (fun bs => bs) (fun bs => .ok bs)
     [9] ⟨false⟩ false (by decide) rfl⟩
